import Mathlib

/-!
Verification of the incremental notes classification-and-reorganization
engine (`notes_organizer.py`).  The Python source is shallowly embedded:
file bytes are `List Nat`, paths are segment lists relative to the working
tree root, the interactive surface and the categorization oracle are
environment functions, and every execution step is a pure state
transformer that also records an event trace.
-/

namespace NotesOrganizer

/-! ## Fingerprint Service: `NotesOrganizer.calculate_crc` (CRC32 of the file bytes) -/

/-- One CRC32 round for a single byte, reflected polynomial 0xEDB88320,
as computed by `zlib.crc32`. -/
def crc32Byte (crc : Nat) (b : Nat) : Nat :=
  (List.range 8).foldl
    (fun c _ => if c % 2 = 1 then Nat.xor (c / 2) 0xEDB88320 else c / 2)
    (Nat.xor crc (b % 256))

/-- Python `zlib.crc32(content) & 0xFFFFFFFF` over a byte list. -/
def crc32 (bytes : List Nat) : Nat :=
  Nat.xor (bytes.foldl crc32Byte 0xFFFFFFFF) 0xFFFFFFFF

/-- Lowercase hex digit. -/
def hexDigit (n : Nat) : Char :=
  if n < 10 then Char.ofNat (48 + n) else Char.ofNat (87 + n)

/-- Python `format(n, '08x')` for `n < 2^32`. -/
def toHex8 (n : Nat) : String :=
  ⟨(List.range 8).map (fun i => hexDigit (n / 16 ^ (7 - i) % 16))⟩

/-- The string returned by `NotesOrganizer.calculate_crc` on the given
file bytes (the I/O failure case is handled at the call site). -/
def calculate_crc (bytes : List Nat) : String :=
  toHex8 (crc32 bytes)

/-- Bytes of the ASCII string "hello", used by the §8 scenario. -/
def helloBytes : List Nat := [104, 101, 108, 108, 111]

/-! ## String helpers mirroring the Python primitives used by the source -/

/-- The characters removed by Python `str.strip()`. -/
def isPyWs (c : Char) : Bool :=
  c == ' ' || c == '\t' || c == '\n' || c == '\r' || c == '\x0b' || c == '\x0c'

/-- Drop characters satisfying `p` from both ends of a character list. -/
def dropEnds (p : Char → Bool) (l : List Char) : List Char :=
  ((l.dropWhile p).reverse.dropWhile p).reverse

/-- Python `str.strip()`. -/
def pyStrip (s : String) : String := ⟨dropEnds isPyWs s.data⟩

/-- Python `str.lower()` (ASCII-faithful). -/
def pyLower (s : String) : String := ⟨s.data.map Char.toLower⟩

/-- Python `s.startswith(pre)` (list-level, so that it evaluates in the kernel). -/
def strStartsWith (s pre : String) : Bool := pre.data.isPrefixOf s.data

/-- Python `s.endswith(suf)` (list-level, so that it evaluates in the kernel). -/
def strEndsWith (s suf : String) : Bool :=
  suf.data.reverse.isPrefixOf s.data.reverse

/-- Python `txt.split('\n')` on the underlying characters. -/
def splitNlAux : List Char → List Char → List String
  | [], acc => [⟨acc.reverse⟩]
  | c :: cs, acc =>
    if c = '\n' then ⟨acc.reverse⟩ :: splitNlAux cs []
    else splitNlAux cs (c :: acc)

/-- Python `txt.split('\n')`. -/
def splitNl (s : String) : List String := splitNlAux s.data []

/-- Bytes Python `str.strip()` treats as whitespace; a markdown file whose
bytes all satisfy this is the "empty or whitespace-only" case. -/
def isWsByte (b : Nat) : Bool :=
  b == 32 || b == 9 || b == 10 || b == 13 || b == 11 || b == 12

/-- Python `not content.strip()`: the file content is empty or whitespace-only. -/
def isBlankContent (bytes : List Nat) : Bool := bytes.all isWsByte

/-! ## Theme Name Sanitizer: `NotesOrganizer.sanitize_theme_name` -/

/-- A character kept unchanged by the sanitizer:
`c.isalnum() or c in "_ -"`. -/
def keepChar (c : Char) : Bool :=
  c.isAlphanum || c == '_' || c == ' ' || c == '-'

/-- Python `c if c.isalnum() or c in "_ -" else "_"`. -/
def replaceChar (c : Char) : Char := if keepChar c then c else '_'

/-- Python `str.strip("_")`. -/
def stripUnderscores (l : List Char) : List Char := dropEnds (· == '_') l

/-- Source `NotesOrganizer.sanitize_theme_name`: replace every character that is
not alphanumeric, space, hyphen or underscore with an underscore, then
strip leading/trailing underscores. -/
def sanitize_theme_name (s : String) : String :=
  ⟨stripUnderscores (s.data.map replaceChar)⟩

/-! ## Oracle response validation: `NotesOrganizer.get_theme_from_llm` -/

/-- A label is valid when `1 <= len(theme) <= 50` and it contains at
least one alphanumeric character. -/
def validLabel (t : String) : Bool :=
  1 ≤ t.length && t.length ≤ 50 && t.data.any Char.isAlphanum

/-- Python `message.content[0].text.strip().split('\n')`, each line stripped,
empty lines discarded. -/
def parseLines (txt : String) : List String :=
  ((splitNl (pyStrip txt)).map pyStrip).filter (fun t => t ≠ "")

/-- The fixed fallback set substituted on oracle failure or when no valid
label survives validation. -/
def fallbackTriple : List String := ["Unsorted", "General", "Misc"]

/-- Source `fallback_options` from the padding loop. -/
def fallbackOptions : List String :=
  ["Unsorted", "General", "Misc", "Documents", "Notes"]

/-- The numbered filler label `f"Misc_{n}"`. -/
def miscLabel (n : Nat) : String := "Misc_" ++ toString n

/-- The `for fallback in fallback_options: ... break` body: append the
first fallback option not already present (no-op when all five are). -/
def appendFirstAbsent (l : List String) : List String :=
  if !(l.contains "Unsorted") then l ++ ["Unsorted"]
  else if !(l.contains "General") then l ++ ["General"]
  else if !(l.contains "Misc") then l ++ ["Misc"]
  else if !(l.contains "Documents") then l ++ ["Documents"]
  else if !(l.contains "Notes") then l ++ ["Notes"]
  else l

/-- One iteration of the `while len(valid_themes) < 3` body: append the
first absent fallback option, and if the count is still below three,
additionally append `f"Misc_{len(valid_themes) + 1}"`. -/
def padStep (l : List String) : List String :=
  if (appendFirstAbsent l).length < 3 then
    appendFirstAbsent l ++ [miscLabel ((appendFirstAbsent l).length + 1)]
  else appendFirstAbsent l

/-- The `while len(valid_themes) < 3` loop (three iterations always
suffice from a start length of at most three). -/
def padThemes : Nat → List String → List String
  | 0, l => l
  | fuel + 1, l => if l.length < 3 then padThemes fuel (padStep l) else l

/-- The `valid_themes` list right after the validation loop: at most the
first three response lines, only those passing validation. -/
def validatedThemes (txt : String) : List String :=
  ((parseLines txt).take 3).filter validLabel

/-- Source `NotesOrganizer.get_theme_from_llm` restricted to its pure part: the
oracle's raw text response (`none` models any API exception) is parsed,
at most the first three lines are validated, the full fallback triple is
substituted when nothing valid remains, the padding loop tops the list up
to three, and the first three labels are returned. -/
def get_theme_from_llm (resp : Option String) : List String :=
  match resp with
  | none => fallbackTriple
  | some txt =>
    (padThemes 3 (if validatedThemes txt = [] then fallbackTriple
                  else validatedThemes txt)).take 3

/-- Modelled from the spec: the spec's description of the padding step —
"deterministic fallback labels are appended (in fixed priority order,
skipping any already present) until the required count is reached" —
used only to compare against the behaviour of the source's padding loop. -/
def specFillFallback : Nat → List String → List String
  | 0, l => l
  | fuel + 1, l =>
    if l.length < 3 then specFillFallback fuel (appendFirstAbsent l) else l

/-! ## Paths and the Path Filter -/

/-- A filesystem path as its segment list, relative to the working-tree
root (so `[]` is the root itself). -/
abbrev FPath := List String

/-- The path joined with `os.sep`, used for the sort tie-break. -/
def pathStrAux : List String → List Char
  | [] => []
  | [s] => s.data
  | s :: rest => s.data ++ '/' :: pathStrAux rest

/-- The path joined with `os.sep`, used for the sort tie-break. -/
def pathStr (p : FPath) : String := ⟨pathStrAux p⟩

/-- Python `os.path.basename`. -/
def basename (p : FPath) : String := (p.getLast?).getD ""

/-- Python `os.path.join(dir, seg)`: joining an empty component adds only a
trailing separator, i.e. it denotes the same directory. -/
def joinSeg (d : FPath) (s : String) : FPath :=
  if s = "" then d else d ++ [s]

/-- Source `NotesOrganizer.should_process_path`: a path is eligible iff no
segment starts with a dot. -/
def should_process_path (p : FPath) : Bool :=
  p.all (fun s => !(strStartsWith s "."))

/-- Python `file_path.lower().endswith('.md')` (the test on the full path is
equivalent to the test on its basename). -/
def isMdName (fn : String) : Bool := strEndsWith (pyLower fn) ".md"

/-- The Decision Memory's own persisted file, excluded from candidacy. -/
def memoryFileName : String := "gedaechtnis.json"

/-! ## Decision Memory data model -/

/-- The per-filename record `{"crc": ..., "theme": ...}`. -/
structure FileRecord where
  crc : String
  theme : String
  deriving DecidableEq, Repr

/-- The persisted memory document `{"files": ..., "themes": ...}`; the
`files` mapping is an insertion-ordered association list, as a Python
dict is. -/
structure Memory where
  files : List (String × FileRecord)
  themes : List String
  deriving DecidableEq, Repr

/-- Dict lookup `memory["files"].get(filename)`. -/
def memFind (files : List (String × FileRecord)) (k : String) :
    Option FileRecord :=
  (files.find? (fun e => e.1 == k)).map (·.2)

/-- Python `filename in memory["files"] and memory["files"][filename]["crc"] ==
current_crc`. -/
def memUpToDate (m : Memory) (fn : String) (cur : String) : Bool :=
  match memFind m.files fn with
  | some r => r.crc == cur
  | none => false

/-- Python dict assignment: an existing key keeps its position, a new key
is appended. -/
def upsert (l : List (String × FileRecord)) (k : String) (v : FileRecord) :
    List (String × FileRecord) :=
  if (l.find? (fun e => e.1 == k)).isSome then
    l.map (fun e => if e.1 == k then (k, v) else e)
  else l ++ [(k, v)]

/-- Lines 346–353 of the source: append the raw selected theme to the
theme list if absent (exact string equality), then upsert the file's
record with the fingerprint computed in the current loop iteration. -/
def recordDecision (m : Memory) (fn cur theme : String) : Memory :=
  { files := upsert m.files fn ⟨cur, theme⟩
    themes := if m.themes.contains theme then m.themes
              else m.themes ++ [theme] }

/-! ## Filesystem model -/

/-- A regular file: its path, its bytes, and whether opening it for
reading raises an I/O error (modelling the OS environment). -/
structure FileEnt where
  path : FPath
  content : List Nat
  readFails : Bool
  deriving DecidableEq, Repr

/-- The working tree: regular files plus the set of existing directories
(`[]`, the root, is always listed). Lists are in OS enumeration order. -/
structure FS where
  files : List FileEnt
  dirs : List FPath
  deriving DecidableEq, Repr

/-- Python `os.path.exists` for a regular file path. -/
def FS.existsFile (fs : FS) (p : FPath) : Bool :=
  (fs.files.find? (fun f => f.path == p)).isSome

/-- Python `open(p, 'rb').read()`: `none` models the raised I/O error (file
absent or unreadable). -/
def FS.readFile (fs : FS) (p : FPath) : Option (List Nat) :=
  match fs.files.find? (fun f => f.path == p) with
  | some f => if f.readFails then none else some f.content
  | none => none

/-- Python `os.remove`. -/
def FS.removeFile (fs : FS) (p : FPath) : FS :=
  { fs with files := fs.files.filter (fun f => !(f.path == p)) }

/-- Python `shutil.move` on one filesystem: `os.rename`, overwriting an existing
destination file (last write wins). -/
def FS.moveFile (fs : FS) (src dst : FPath) : FS :=
  match fs.files.find? (fun f => f.path == src) with
  | none => fs
  | some f =>
    { fs with
      files := (fs.files.filter
        (fun g => !(g.path == src) && !(g.path == dst))) ++ [{ f with path := dst }] }

/-- Create one directory if absent. -/
def FS.addDir (fs : FS) (q : FPath) : FS :=
  if fs.dirs.contains q then fs else { fs with dirs := fs.dirs ++ [q] }

/-- Python `os.makedirs(d, exist_ok=True)`: create every missing prefix. -/
def FS.makedirs (fs : FS) (d : FPath) : FS :=
  (List.range d.length).foldl (fun a i => a.addDir (d.take (i + 1))) fs

/-- Names of the immediate child files of directory `d`. -/
def FS.childFileNames (fs : FS) (d : FPath) : List String :=
  fs.files.filterMap (fun f =>
    if f.path.length == d.length + 1 && f.path.take d.length == d then
      f.path.getLast?
    else none)

/-- Names of the immediate child directories of directory `d`. -/
def FS.childDirNames (fs : FS) (d : FPath) : List String :=
  fs.dirs.filterMap (fun q =>
    if q.length == d.length + 1 && q.take d.length == d then q.getLast?
    else none)

/-- Python `os.listdir d` as entry names. -/
def FS.entriesOf (fs : FS) (d : FPath) : List String :=
  fs.childFileNames d ++ fs.childDirNames d

/-- Source `is_directory_empty`: every directory entry is dot-prefixed. -/
def is_directory_empty (fs : FS) (d : FPath) : Bool :=
  (fs.entriesOf d).all (fun n => strStartsWith n ".")

/-! ## Run state, environment and the event trace -/

/-- The observable actions of one engine run, in execution order. -/
inductive Event where
  | crcOf (p : FPath)
  | memCheck (p : FPath) (upToDate : Bool)
  | fileDeleted (p : FPath)
  | oracleQuery (filename : String)
  | prompt (p : FPath)
  | mkdirAll (d : FPath)
  | moved (src dst : FPath)
  | memSaved
  | rmdirOk (d : FPath)
  | rmdirFail (d : FPath)
  | errorLogged (what : String)
  | sweepStart
  deriving DecidableEq, Repr

/-- The mutable run state: working tree, loaded memory, the count of
oracle queries issued so far, the per-path count of prompts answered so
far, the event trace, and whether an uncaught exception has aborted the
run (a raised error propagates out of `organize_notes`, which logs and
re-raises). -/
structure OrgState where
  fs : FS
  memory : Memory
  oracleCount : Nat
  promptCount : List (FPath × Nat)
  events : List Event
  fatal : Bool
  deriving DecidableEq, Repr

/-- The run environment: the categorization oracle as a function of the
query index (`none` models any API failure), and the interactive user as
a function of the prompted file's path and of how many prompts for that
path were already answered this run.  `loopFuel` bounds the retry loop;
exhausting it marks the run fatal (a model artifact; every theorem uses
runs that terminate within the bound). -/
structure Env where
  oracle : Nat → Option String
  userIn : FPath → Nat → String
  loopFuel : Nat

/-- Append one event. -/
def emit (st : OrgState) (e : Event) : OrgState :=
  { st with events := st.events ++ [e] }

/-- A raised exception: log and mark the run aborted. -/
def fatalize (st : OrgState) (what : String) : OrgState :=
  { st with events := st.events ++ [.errorLogged what], fatal := true }

/-- Prompts already answered for path `p`. -/
def getCount (m : List (FPath × Nat)) (p : FPath) : Nat :=
  ((m.find? (fun e => e.1 == p)).map (·.2)).getD 0

/-- Record one more answered prompt for path `p`. -/
def bumpCount (m : List (FPath × Nat)) (p : FPath) : List (FPath × Nat) :=
  (p, getCount m p + 1) :: m

/-- A new run over the given tree and loaded memory. -/
def initState (fs : FS) (mem : Memory) : OrgState :=
  ⟨fs, mem, 0, [], [], false⟩

/-! ## File Classification State Machine: `NotesOrganizer.process_file` -/

/-- Source `NotesOrganizer.get_file_content`: for a markdown file, read the
text; if it is empty or whitespace-only, delete the file on the spot and
return no content (processing nevertheless continues in the caller); a
read error raises.  For a non-markdown file, return no content. -/
def get_file_content (st : OrgState) (p : FPath) (fn : String) :
    OrgState × Option (List Nat) :=
  if isMdName fn then
    match st.fs.readFile p with
    | none => (fatalize st "read", none)
    | some bytes =>
      if isBlankContent bytes then
        ({ emit st (.fileDeleted p) with fs := st.fs.removeFile p }, none)
      else (st, some bytes)
  else (st, none)

/-- Lines 326–356 of the source: sanitize the resolved theme, build the
destination under the working-tree root, `os.makedirs(..., exist_ok=
True)`, `shutil.move` (raising if the source no longer exists), then
record the decision into memory and persist it. -/
def moveBranch (st : OrgState) (p : FPath) (fn cur selected : String) :
    OrgState :=
  if st.fatal then st else
  let sanitized := sanitize_theme_name selected
  let themeDir := joinSeg [] sanitized
  let newPath := themeDir ++ [fn]
  let st := { emit st (.mkdirAll themeDir) with fs := st.fs.makedirs themeDir }
  if st.fs.existsFile p then
    let st := { emit st (.moved p newPath) with fs := st.fs.moveFile p newPath }
    { emit st .memSaved with memory := recordDecision st.memory fn cur selected }
  else fatalize st "move"

/-- The `while True` retry loop of `NotesOrganizer.process_file`: compute
the fingerprint (raising on a read error), return if Decision Memory is
up to date, read the content (possibly deleting a blank markdown file),
query the oracle, prompt the user, and resolve the answer into cancel,
delete, retry, or a move. -/
def processLoop (env : Env) : Nat → OrgState → FPath → String → OrgState
  | 0, st, _, _ => fatalize st "fuel"
  | fuel + 1, st, p, fn =>
    if st.fatal then st else
    match st.fs.readFile p with
    | none => fatalize st "crc"
    | some bytes =>
      let cur := calculate_crc bytes
      let st := emit st (.crcOf p)
      let upToDate := memUpToDate st.memory fn cur
      let st := emit st (.memCheck p upToDate)
      if upToDate then st
      else
        let (st, _content) := get_file_content st p fn
        if st.fatal then st else
        let st := emit st (.oracleQuery fn)
        let resp := env.oracle st.oracleCount
        let st := { st with oracleCount := st.oracleCount + 1 }
        let themes := get_theme_from_llm resp
        let themes := if themes = [] || themes.length ≠ 3 then fallbackTriple
                      else themes
        let st := emit st (.prompt p)
        let k := getCount st.promptCount p
        let st := { st with promptCount := bumpCount st.promptCount p }
        let inp := pyStrip (env.userIn p k)
        if pyLower inp = "n" then st
        else if pyLower inp = "d" then
          if st.fs.existsFile p then
            { emit st (.fileDeleted p) with fs := st.fs.removeFile p }
          else fatalize st "delete"
        else if pyLower inp = "r" then processLoop env fuel st p fn
        else
          let selected :=
            if inp = "1" then themes.getD 0 ""
            else if inp = "2" then themes.getD 1 ""
            else if inp = "3" then themes.getD 2 ""
            else inp
          moveBranch st p fn cur selected

/-- Source `NotesOrganizer.process_file`: skip ineligible paths and files that
no longer exist, then run the retry loop. -/
def process_file (env : Env) (st : OrgState) (p : FPath) : OrgState :=
  if st.fatal then st else
  if !(should_process_path p) then st else
  if !(st.fs.existsFile p) then st else
  processLoop env (env.loopFuel + 1) st p (basename p)

/-! ## Tree Reorganization Driver -/

/-- The removal attempt at the end of a sweep body: when
`is_directory_empty` reports only dot-prefixed entries and the directory
is not the working-tree root, `os.rmdir` is called — it succeeds only on
a truly empty directory and otherwise raises, which is caught and
logged. -/
def sweepRm (st : OrgState) (d : FPath) : OrgState :=
  if is_directory_empty st.fs d && !(d == ([] : FPath)) then
    if (st.fs.entriesOf d).isEmpty then
      { emit st (.rmdirOk d) with
        fs := { st.fs with
                dirs := st.fs.dirs.filter (fun q => !(q == d)) } }
    else emit st (.rmdirFail d)
  else st

/-- The `for file in files: ... process_file` loop of the sweep body
(the memory file excepted). -/
def sweepFiles (env : Env) (st : OrgState) (d : FPath)
    (fils : List String) : OrgState :=
  fils.foldl
    (fun s n => if n == memoryFileName then s
                else process_file env s (d ++ [n])) st

/-- The consumer body run at one yielded directory of the bottom-up
walk: skip excluded directories, re-process every file entry, then
attempt the removal. -/
def sweepBody (env : Env) (st : OrgState) (d : FPath)
    (fils : List String) : OrgState :=
  if !(should_process_path d) then st
  else
    let st := sweepFiles env st d fils
    if st.fatal then st else sweepRm st d

/-- Source `remove_empty_directories`: the `os.walk(..., topdown=False)` sweep.
A directory's entries are scanned when the generator first reaches it,
children are fully handled (with the consumer's actions interleaved)
before the parent's body runs; the body of an eligible directory
re-processes every file entry except the memory file, re-lists the
directory, and removes it when only dot-prefixed entries remain.
The working-tree root is never removed. -/
def sweepDir (env : Env) : Nat → OrgState → FPath → OrgState
  | 0, st, _ => fatalize st "fuel"
  | fuel + 1, st, d =>
    if st.fatal then st else
    let subs := (st.fs.childDirNames d).map (fun n => d ++ [n])
    let fils := st.fs.childFileNames d
    let st1 := subs.foldl (fun s q => sweepDir env fuel s q) st
    if st1.fatal then st1 else sweepBody env st1 d fils

/-- The file-collection walk of `organize_notes`: `os.walk` descends
everywhere, and the files of each eligible directory, the memory file
excepted, become candidates. -/
def walkCollect : Nat → FS → FPath → List FPath
  | 0, _, _ => []
  | fuel + 1, fs, d =>
    let fils :=
      if should_process_path d then
        (fs.childFileNames d).filterMap
          (fun n => if n == memoryFileName then none else some (d ++ [n]))
      else []
    fils ++ ((fs.childDirNames d).map (fun n => d ++ [n])).foldl
      (fun a q => a ++ walkCollect fuel fs q) []

/-- Python string comparison (code-point lexicographic) as `≤`. -/
def strLeB : List Char → List Char → Bool
  | [], _ => true
  | _ :: _, [] => false
  | a :: as, b :: bs => if a = b then strLeB as bs else decide (a.toNat < b.toNat)

/-- The `sorted` processing order: primary key path depth ascending,
secondary key the full path string. -/
def fileLe (a b : FPath) : Bool :=
  a.length < b.length ||
    (a.length == b.length && strLeB (pathStr a).data (pathStr b).data)

/-- Insertion into a sorted list. -/
def insertLe (x : FPath) : List FPath → List FPath
  | [] => [x]
  | y :: ys => if fileLe x y then x :: y :: ys else y :: insertLe x ys

/-- Source `files_to_process.sort(key=lambda x: (x[1], x[0]))`. -/
def sortFiles (l : List FPath) : List FPath := l.foldr insertLe []

/-- Source `NotesOrganizer.organize_notes` in `sorted` mode: collect the
candidates, sort them, resolve each in order, then run the
empty-directory sweep.  An exception raised while processing any file
propagates (logged and re-raised), aborting the whole run. -/
def organize_notes (env : Env) (fuel : Nat) (st : OrgState) : OrgState :=
  if st.fatal then st else
  let files := sortFiles (walkCollect fuel st.fs [])
  let st := files.foldl (fun s p => process_file env s p) st
  if st.fatal then st else
  sweepDir env fuel (emit st .sweepStart) []

/-! ## Concrete run fixtures used by the claim theorems -/

/-- Claim-invariant notion of a filesystem action that moves or deletes
a user file. -/
def isMoveDel : Event → Bool
  | .moved _ _ => true
  | .fileDeleted _ => true
  | _ => false

/-- C1 fixture: an unreachable oracle and a user who always selects the
first suggestion. -/
def c1Env : Env := ⟨fun _ => none, fun _ _ => "1", 5⟩

/-- C1 fixture: a single markdown note whose content is the whitespace
bytes `" \n"`. -/
def c1Fs : FS := ⟨[⟨["a.md"], [32, 10], false⟩], [[]]⟩

/-- C1 fixture: processing the blank note. -/
def c1Run : OrgState := process_file c1Env (initState c1Fs ⟨[], []⟩) ["a.md"]

/-- C2 fixture: a user who always cancels. -/
def c2Env : Env := ⟨fun _ => none, fun _ _ => "n", 5⟩

/-- C2 fixture: `a.md` raises an I/O error when opened, `b.md` is fine
and sorts after it. -/
def c2Fs : FS := ⟨[⟨["a.md"], [104], true⟩, ⟨["b.md"], [105], false⟩], [[]]⟩

/-- C2 fixture: the full run over both files. -/
def c2Run : OrgState := organize_notes c2Env 10 (initState c2Fs ⟨[], []⟩)

/-- C3 fixture: the user's decision depends only on which file is shown
(the same total function is used for both runs, so the user's inputs are
unchanged between runs). -/
def c3Env : Env :=
  ⟨fun _ => none,
   fun p _ =>
     if p = ["dir1", "a.md"] || p = ["Unsorted", "a.md"] then "1"
     else if p = ["dir2", "a.md"] || p = ["General", "a.md"] then "2"
     else "n", 5⟩

/-- C3 fixture: two distinct files sharing the basename `a.md`. -/
def c3Fs : FS :=
  ⟨[⟨["dir1", "a.md"], [120], false⟩, ⟨["dir2", "a.md"], [121], false⟩],
   [[], ["dir1"], ["dir2"]]⟩

/-- C3 fixture: the first run (memory seeded with the existing top-level
directory names, as `_load_memory` does). -/
def c3Run1 : OrgState :=
  organize_notes c3Env 10 (initState c3Fs ⟨[], ["dir1", "dir2"]⟩)

/-- C3 fixture: the second run, over the unchanged tree and the persisted
memory of the first, with the same user function. -/
def c3Run2 : OrgState :=
  organize_notes c3Env 10 (initState c3Run1.fs c3Run1.memory)

/-- C3 witness fixture: a memory whose single record matches the
fingerprint of the `hello` note. -/
def c3wMem : Memory := ⟨[("a.md", ⟨"3610a686", "Projects"⟩)], ["Projects"]⟩

/-- C4 fixture: environment (never consulted in this scenario). -/
def c4Env : Env := ⟨fun _ => none, fun _ _ => "n", 5⟩

/-- C4 fixture: `Old/Sub` contains only the hidden file `.h`. -/
def c4Fs : FS :=
  ⟨[⟨["Old", "Sub", ".h"], [97], false⟩], [[], ["Old"], ["Old", "Sub"]]⟩

/-- C4 fixture: the post-pass sweep over the tree. -/
def c4Run : OrgState := sweepDir c4Env 10 (initState c4Fs ⟨[], []⟩) []

/-- C5 fixture: the user retries once, then cancels. -/
def c5Env : Env := ⟨fun _ => none, fun _ k => if k = 0 then "r" else "n", 5⟩

/-- C5 fixture: one markdown note with content `"hi"`. -/
def c5Fs : FS := ⟨[⟨["n.md"], [104, 105], false⟩], [[]]⟩

/-- C5 fixture: processing the note through retry and cancel. -/
def c5Run : OrgState := process_file c5Env (initState c5Fs ⟨[], []⟩) ["n.md"]

/-- C5 witness fixture: a non-markdown file. -/
def c5wFs : FS := ⟨[⟨["data.txt"], [104], false⟩], [[]]⟩

/-- C6/C8 §8 fixture: the fallback scenario — one note `a.md` with
content `"hello"`, oracle unreachable, the user selects the first
(fallback) suggestion. -/
def c6Env : Env := ⟨fun _ => none, fun _ _ => "1", 5⟩

/-- C6 fixture: the working tree of the fallback scenario. -/
def c6Fs : FS := ⟨[⟨["a.md"], helloBytes, false⟩], [[]]⟩

/-- C6 fixture: the full fallback-scenario run. -/
def c6Run : OrgState := organize_notes c6Env 10 (initState c6Fs ⟨[], []⟩)

/-- C7 fixture: the user enters the custom label `"!!!"`, whose sanitized
form is empty. -/
def c7Env : Env := ⟨fun _ => none, fun _ _ => "!!!", 5⟩

/-- C7 fixture: one note inside a subdirectory. -/
def c7Fs : FS := ⟨[⟨["sub", "f.md"], [104], false⟩], [[], ["sub"]]⟩

/-- C7 fixture: processing the note with the degenerate label. -/
def c7Run : OrgState :=
  process_file c7Env (initState c7Fs ⟨[], []⟩) ["sub", "f.md"]

/-- C10 fixture: the user cancels the first prompt for each file and
selects the first suggestion at any later prompt. -/
def c10Env : Env := ⟨fun _ => none, fun _ k => if k = 0 then "n" else "1", 5⟩

/-- C10 fixture: one note inside `dir1`. -/
def c10Fs : FS := ⟨[⟨["dir1", "n.md"], [120], false⟩], [[], ["dir1"]]⟩

/-- C10 fixture: the full run (main pass, then the sweep). -/
def c10Run : OrgState := organize_notes c10Env 10 (initState c10Fs ⟨[], []⟩)

/-! ## Invariant used for the idempotence claim -/

/-- Every file of the tree has a Decision Memory record for its basename
whose stored fingerprint equals the file's current fingerprint. -/
def InvFM (files : List FileEnt) (m : Memory) : Prop :=
  ∀ f ∈ files, memUpToDate m (basename f.path) (calculate_crc f.content) = true

/-- The run-state invariant for the idempotence argument. -/
def Inv (st : OrgState) : Prop := InvFM st.fs.files st.memory

/-- State `st'` differs from `st` by neither user files, nor memory, nor any
new move/delete event. -/
def Untouched (st st' : OrgState) : Prop :=
  st'.fs.files = st.fs.files ∧ st'.memory = st.memory ∧
  st'.events.countP isMoveDel = st.events.countP isMoveDel

/-! ## Lemmas about `dropEnds` (Python `strip`) -/

theorem dropWhile_head?_false (p : Char → Bool) (l : List Char) (c : Char)
    (h : (l.dropWhile p).head? = some c) : p c = false := by
  induction l with
  | nil => simp [List.dropWhile] at h
  | cons a as ih =>
    rw [List.dropWhile_cons] at h
    by_cases hpa : p a
    · rw [if_pos hpa] at h; exact ih h
    · rw [if_neg hpa] at h
      simp only [List.head?_cons, Option.some.injEq] at h
      subst h; exact Bool.eq_false_iff.mpr hpa

theorem dropWhile_eq_self_of_head? (p : Char → Bool) (l : List Char)
    (h : ∀ c, l.head? = some c → p c = false) : l.dropWhile p = l := by
  cases l with
  | nil => rfl
  | cons a as =>
    rw [List.dropWhile_cons, h a rfl]
    simp

theorem getLast?_of_suffix {l t : List Char} (h : l <:+ t) (hne : l ≠ []) :
    t.getLast? = l.getLast? := by
  obtain ⟨u, rfl⟩ := h
  exact List.getLast?_append_of_ne_nil u hne

theorem mem_of_mem_dropEnds {p : Char → Bool} {l : List Char} {c : Char}
    (h : c ∈ dropEnds p l) : c ∈ l := by
  unfold dropEnds at h
  rw [List.mem_reverse] at h
  have h1 := (List.dropWhile_suffix (l := (l.dropWhile p).reverse) p).subset h
  rw [List.mem_reverse] at h1
  exact (List.dropWhile_suffix p).subset h1

theorem head?_dropEnds {p : Char → Bool} {l : List Char} {c : Char}
    (h : (dropEnds p l).head? = some c) : p c = false := by
  unfold dropEnds at h
  rw [List.head?_reverse] at h
  set X := (l.dropWhile p).reverse.dropWhile p with hX
  have hne : X ≠ [] := by
    intro h0; rw [h0] at h; simp at h
  have hsuf : X <:+ (l.dropWhile p).reverse := List.dropWhile_suffix p
  rw [← getLast?_of_suffix hsuf hne, List.getLast?_reverse] at h
  exact dropWhile_head?_false p _ c h

theorem getLast?_dropEnds {p : Char → Bool} {l : List Char} {c : Char}
    (h : (dropEnds p l).getLast? = some c) : p c = false := by
  unfold dropEnds at h
  rw [List.getLast?_reverse] at h
  exact dropWhile_head?_false p _ c h

theorem dropEnds_idem (p : Char → Bool) (l : List Char) :
    dropEnds p (dropEnds p l) = dropEnds p l := by
  have h1 : (dropEnds p l).dropWhile p = dropEnds p l :=
    dropWhile_eq_self_of_head? p _ (fun c hc =>
      head?_dropEnds (p := p) (l := l) hc)
  have h2 : (dropEnds p l).reverse.dropWhile p = (dropEnds p l).reverse :=
    dropWhile_eq_self_of_head? p _ (fun c hc => by
      rw [List.head?_reverse] at hc
      exact getLast?_dropEnds (p := p) (l := l) hc)
  show ((((dropEnds p l).dropWhile p).reverse.dropWhile p)).reverse = dropEnds p l
  rw [h1, h2, List.reverse_reverse]

/-! ## Lemmas about the sanitizer -/

theorem keepChar_replaceChar (c : Char) : keepChar (replaceChar c) = true := by
  unfold replaceChar
  split
  · assumption
  · decide

theorem replaceChar_of_keep {c : Char} (h : keepChar c = true) :
    replaceChar c = c := by
  unfold replaceChar; rw [if_pos h]

theorem sanitize_mem_keep {s : String} {c : Char}
    (h : c ∈ (sanitize_theme_name s).data) : keepChar c = true := by
  have h1 : c ∈ (s.data.map replaceChar) := mem_of_mem_dropEnds h
  obtain ⟨c', _, rfl⟩ := List.mem_map.mp h1
  exact keepChar_replaceChar c'

/--
C9: for every string `x`, `sanitize(x)` contains only alphanumeric
characters, spaces, hyphens and underscores, has no leading or trailing
underscore, and `sanitize` is idempotent.
-/
theorem C9_sanitize_charset_trim_idempotent (s : String) :
    (sanitize_theme_name s).data.all keepChar = true ∧
    (sanitize_theme_name s).data.head? ≠ some '_' ∧
    (sanitize_theme_name s).data.getLast? ≠ some '_' ∧
    sanitize_theme_name (sanitize_theme_name s) = sanitize_theme_name s := by
  refine ⟨?_, ?_, ?_, ?_⟩
  · exact List.all_eq_true.mpr (fun c hc => sanitize_mem_keep hc)
  · intro h
    have := head?_dropEnds (p := (· == '_')) (l := s.data.map replaceChar) h
    simp at this
  · intro h
    have := getLast?_dropEnds (p := (· == '_')) (l := s.data.map replaceChar) h
    simp at this
  · show (⟨dropEnds (· == '_')
      ((sanitize_theme_name s).data.map replaceChar)⟩ : String) = _
    have hid : (sanitize_theme_name s).data.map replaceChar =
        (sanitize_theme_name s).data := by
      have h1 : (sanitize_theme_name s).data.map replaceChar =
          (sanitize_theme_name s).data.map id :=
        List.map_congr_left
          (fun a ha => replaceChar_of_keep (sanitize_mem_keep ha))
      rw [h1, List.map_id]
    rw [hid]
    show (⟨dropEnds (· == '_')
      (dropEnds (· == '_') (s.data.map replaceChar))⟩ : String) = _
    rw [dropEnds_idem]
    rfl

/-! ## Lemmas about the oracle-response padding loop -/

theorem appendFirstAbsent_extends (l : List String) :
    ∃ t, appendFirstAbsent l = l ++ t := by
  unfold appendFirstAbsent
  split_ifs
  · exact ⟨_, rfl⟩
  · exact ⟨_, rfl⟩
  · exact ⟨_, rfl⟩
  · exact ⟨_, rfl⟩
  · exact ⟨_, rfl⟩
  · exact ⟨[], by simp⟩

theorem padStep_extends (l : List String) : ∃ t, padStep l = l ++ t := by
  unfold padStep
  obtain ⟨t, ht⟩ := appendFirstAbsent_extends l
  rw [ht]
  split_ifs
  · exact ⟨t ++ [miscLabel ((l ++ t).length + 1)], by rw [List.append_assoc]⟩
  · exact ⟨t, rfl⟩

theorem padThemes_extends (fuel : Nat) (l : List String) :
    ∃ t, padThemes fuel l = l ++ t := by
  induction fuel generalizing l with
  | zero => exact ⟨[], by simp [padThemes]⟩
  | succ n ih =>
    show (∃ t, (if l.length < 3 then padThemes n (padStep l) else l) = l ++ t)
    split_ifs
    · obtain ⟨t1, ht1⟩ := padStep_extends l
      obtain ⟨t2, ht2⟩ := ih (padStep l)
      exact ⟨t1 ++ t2, by rw [ht2, ht1, List.append_assoc]⟩
    · exact ⟨[], by simp⟩

theorem padStep_bounds (l : List String) (h : l.length < 3) :
    l.length + 1 ≤ (padStep l).length ∧ (padStep l).length ≤ 3 := by
  unfold padStep appendFirstAbsent
  split_ifs <;> simp_all [List.length_append] <;> omega

theorem padThemes_three_length (l : List String) (h : l.length ≤ 3) :
    (padThemes 3 l).length = 3 := by
  by_cases h1 : l.length < 3
  · have b1 := padStep_bounds l h1
    show (if l.length < 3 then padThemes 2 (padStep l) else l).length = 3
    rw [if_pos h1]
    by_cases h2 : (padStep l).length < 3
    · have b2 := padStep_bounds _ h2
      show (if (padStep l).length < 3 then
        padThemes 1 (padStep (padStep l)) else padStep l).length = 3
      rw [if_pos h2]
      by_cases h3 : (padStep (padStep l)).length < 3
      · have b3 := padStep_bounds _ h3
        show (if (padStep (padStep l)).length < 3 then
          padThemes 0 (padStep (padStep (padStep l)))
          else padStep (padStep l)).length = 3
        rw [if_pos h3]
        show (padStep (padStep (padStep l))).length = 3
        omega
      · show (if (padStep (padStep l)).length < 3 then
          padThemes 0 (padStep (padStep (padStep l)))
          else padStep (padStep l)).length = 3
        rw [if_neg h3]
        omega
    · show (if (padStep l).length < 3 then
        padThemes 1 (padStep (padStep l)) else padStep l).length = 3
      rw [if_neg h2]
      omega
  · show (if l.length < 3 then padThemes 2 (padStep l) else l).length = 3
    rw [if_neg h1]
    omega

theorem validFiltered_length_le (txt : String) :
    (validatedThemes txt).length ≤ 3 :=
  le_trans (List.length_filter_le _ _) (List.length_take_le _ _)

/--
C8 counterexample: with a response consisting of the single valid label
"ProjectX", the source's padding loop returns
`["ProjectX", "Unsorted", "Misc_3"]`, not the
`["ProjectX", "Unsorted", "General"]` that appending the fallback labels
in fixed priority order (the claim's description, `specFillFallback`)
would produce; `"Misc_3"` is not one of the deterministic fallback
labels at all.
-/
theorem C8_counterexample_misc_numbered_padding :
    get_theme_from_llm (some "ProjectX") = ["ProjectX", "Unsorted", "Misc_3"] ∧
    specFillFallback 3 ["ProjectX"] = ["ProjectX", "Unsorted", "General"] ∧
    get_theme_from_llm (some "ProjectX") ≠ specFillFallback 3 ["ProjectX"] ∧
    "Misc_3" ∉ fallbackOptions := by
  refine ⟨by decide, by decide, by decide, by decide⟩

/--
C8 (amended): oracle failure substitutes exactly
`["Unsorted", "General", "Misc"]`; the result always has exactly three
labels; the validated labels (non-empty, at most 50 characters, at least
one alphanumeric character, among the first three response lines) are
kept in order as a prefix of the result; but the padding is not a pure
priority-order fill: each padding round appends the first absent
fallback option and then, if the count is still below three, a numbered
label `Misc_{n+1}` — so a response with a single valid label `l` yields
`[l, "Unsorted", "Misc_3"]`.
-/
theorem C8_fallback_validation_padding :
    (get_theme_from_llm none = ["Unsorted", "General", "Misc"]) ∧
    (∀ txt, (get_theme_from_llm (some txt)).length = 3) ∧
    (∀ txt, validatedThemes txt ≠ [] →
      (get_theme_from_llm (some txt)).take (validatedThemes txt).length =
        validatedThemes txt) ∧
    (∀ l, parseLines l = [l] → validLabel l = true → l ≠ "Unsorted" →
      get_theme_from_llm (some l) = [l, "Unsorted", "Misc_3"]) := by
  refine ⟨rfl, ?_, ?_, ?_⟩
  · intro txt
    show ((padThemes 3 (if validatedThemes txt = [] then fallbackTriple
          else validatedThemes txt)).take 3).length = 3
    split_ifs with hv
    · decide
    · have hlen := validFiltered_length_le txt
      rw [List.length_take, padThemes_three_length _ hlen]
      simp
  · intro txt hne
    show ((padThemes 3 (if validatedThemes txt = [] then fallbackTriple
          else validatedThemes txt)).take 3).take
          (validatedThemes txt).length = validatedThemes txt
    rw [if_neg hne]
    obtain ⟨t, ht⟩ := padThemes_extends 3 (validatedThemes txt)
    rw [ht, List.take_take]
    have h3 : (validatedThemes txt).length ≤ 3 := validFiltered_length_le txt
    rw [min_eq_left h3, List.take_left]
  · intro l hp hval hne
    have hfil : validatedThemes l = [l] := by
      unfold validatedThemes
      rw [hp]
      simp [hval]
    show ((padThemes 3 (if validatedThemes l = [] then fallbackTriple
          else validatedThemes l)).take 3) = [l, "Unsorted", "Misc_3"]
    rw [hfil, if_neg (by simp)]
    have hbeq : (("Unsorted" : String) == l) = false :=
      beq_eq_false_iff_ne.mpr (Ne.symm hne)
    have hcon : (([l] : List String).contains "Unsorted") = false := by
      simp only [List.contains, List.elem_cons, List.elem_nil]
      rw [hbeq]
    have habs : appendFirstAbsent [l] = [l, "Unsorted"] := by
      unfold appendFirstAbsent
      rw [hcon]
      simp
    have hstep : padStep [l] = [l, "Unsorted", miscLabel 3] := by
      unfold padStep
      rw [habs]
      simp
    show (if ([l] : List String).length < 3 then
        padThemes 2 (padStep [l]) else [l]).take 3 = _
    rw [if_pos (by simp), hstep]
    show (if ([l, "Unsorted", miscLabel 3] : List String).length < 3 then
        padThemes 1 (padStep [l, "Unsorted", miscLabel 3])
        else [l, "Unsorted", miscLabel 3]).take 3 = _
    rw [if_neg (by simp)]
    have hm : miscLabel 3 = "Misc_3" := by decide
    rw [hm]
    rfl

/-- C8 witness: the padding behaviour at concrete responses, with the
hypotheses discharged concretely. -/
theorem C8_fallback_validation_padding_witness :
    get_theme_from_llm (some "Alpha") = ["Alpha", "Unsorted", "Misc_3"] ∧
    (get_theme_from_llm (some "Beta")).length = 3 ∧
    (get_theme_from_llm (some "Gamma")).take
        (validatedThemes "Gamma").length = validatedThemes "Gamma" :=
  ⟨C8_fallback_validation_padding.2.2.2 "Alpha" (by decide) (by decide)
      (by decide),
   C8_fallback_validation_padding.2.1 "Beta",
   C8_fallback_validation_padding.2.2.1 "Gamma" (by decide)⟩

/-! ## Small structural lemmas about the filesystem model -/

theorem addDir_files (fs : FS) (q : FPath) : (fs.addDir q).files = fs.files := by
  unfold FS.addDir
  split_ifs <;> rfl

theorem makedirs_files (fs : FS) (d : FPath) :
    (fs.makedirs d).files = fs.files := by
  unfold FS.makedirs
  generalize List.range d.length = l
  induction l generalizing fs with
  | nil => rfl
  | cons a t ih => rw [List.foldl_cons, ih, addDir_files]

theorem makedirs_existsFile (fs : FS) (d p : FPath) :
    (fs.makedirs d).existsFile p = fs.existsFile p := by
  unfold FS.existsFile
  rw [makedirs_files]

theorem moveFile_dirs (fs : FS) (src dst : FPath) :
    (fs.moveFile src dst).dirs = fs.dirs := by
  unfold FS.moveFile
  cases fs.files.find? (fun f => f.path == src) <;> rfl

theorem find?_cons_true {α : Type} (p : α → Bool) (a : α) (l : List α)
    (h : p a = true) : (a :: l).find? p = some a := by
  simp [List.find?_cons, h]

theorem find?_cons_false {α : Type} (p : α → Bool) (a : α) (l : List α)
    (h : p a = false) : (a :: l).find? p = l.find? p := by
  simp [List.find?_cons, h]

theorem memFind_upsert (l : List (String × FileRecord)) (k : String)
    (v : FileRecord) : memFind (upsert l k v) k = some v := by
  have hkv : ((fun x : String × FileRecord => x.1 == k) (k, v)) = true := by
    simp
  induction l with
  | nil =>
    show memFind [(k, v)] k = some v
    unfold memFind
    rw [find?_cons_true (fun x => x.1 == k) (k, v) [] hkv]
    rfl
  | cons e t ih =>
    by_cases he : (e.1 == k) = true
    · have hsome : (((e :: t).find? (fun x => x.1 == k)).isSome) = true := by
        rw [find?_cons_true (fun x => x.1 == k) e t he]
        rfl
      unfold upsert
      rw [if_pos hsome]
      show memFind ((if e.1 == k then (k, v) else e) ::
        t.map (fun x => if x.1 == k then (k, v) else x)) k = some v
      rw [if_pos he]
      unfold memFind
      rw [find?_cons_true (fun x => x.1 == k) (k, v) _ hkv]
      rfl
    · have he' : (e.1 == k) = false := by simpa using he
      by_cases ht : (t.find? (fun x => x.1 == k)).isSome = true
      · have hsome : (((e :: t).find? (fun x => x.1 == k)).isSome) = true := by
          rw [find?_cons_false (fun x => x.1 == k) e t he']
          exact ht
        have ihm : memFind (t.map (fun x => if x.1 == k then (k, v) else x))
            k = some v := by
          have h2 := ih
          unfold upsert at h2
          rw [if_pos ht] at h2
          exact h2
        unfold upsert
        rw [if_pos hsome]
        show memFind ((if e.1 == k then (k, v) else e) ::
          t.map (fun x => if x.1 == k then (k, v) else x)) k = some v
        rw [if_neg he]
        unfold memFind
        rw [find?_cons_false (fun x => x.1 == k) e _ he']
        exact ihm
      · have hnone : ¬((((e :: t).find? (fun x => x.1 == k)).isSome) = true) := by
          rw [find?_cons_false (fun x => x.1 == k) e t he']
          exact ht
        have iha : memFind (t ++ [(k, v)]) k = some v := by
          have h2 := ih
          unfold upsert at h2
          rw [if_neg ht] at h2
          exact h2
        unfold upsert
        rw [if_neg hnone]
        show memFind (e :: (t ++ [(k, v)])) k = some v
        unfold memFind
        rw [find?_cons_false (fun x => x.1 == k) e _ he']
        exact iha

/-! ## Theorems for the per-claim results -/

/--
C2 (amended): a read/CRC error on a single file is logged and then
re-raised: the exception propagates out of `organize_notes`, aborting
the entire run — once the run is fatal, no later file is processed (the
fold over the remaining files is the identity).  The failing file's
memory entry is indeed not updated.
-/
theorem C2_per_file_error_aborts_whole_run :
    (∀ env st p, st.fatal = true → process_file env st p = st) ∧
    (∀ env (l : List FPath) st, st.fatal = true →
      l.foldl (fun s p => process_file env s p) st = st) ∧
    (c2Run.fatal = true ∧ Event.crcOf ["b.md"] ∉ c2Run.events ∧
      c2Run.memory.files = []) := by
  have h1 : ∀ env st p, st.fatal = true → process_file env st p = st := by
    intro env st p h
    unfold process_file
    simp [h]
  refine ⟨h1, ?_, by decide, by decide, by decide⟩
  intro env l
  induction l with
  | nil => intro st _; rfl
  | cons a t ih =>
    intro st h
    rw [List.foldl_cons, h1 env st a h]
    exact ih st h

/-- C2 witness: a fatal state absorbs any further file processing. -/
theorem C2_per_file_error_aborts_whole_run_witness :
    process_file c2Env (fatalize (initState c2Fs ⟨[], []⟩) "boom") ["a.md"] =
      fatalize (initState c2Fs ⟨[], []⟩) "boom" :=
  C2_per_file_error_aborts_whole_run.1 c2Env _ ["a.md"] rfl

/-- The move branch of `process_file` in closed form, when the run is
live and the source file still exists. -/
theorem moveBranch_eq (st : OrgState) (p : FPath) (fn cur sel : String)
    (h0 : st.fatal = false) (h1 : st.fs.existsFile p = true) :
    moveBranch st p fn cur sel =
      { fs := (st.fs.makedirs (joinSeg [] (sanitize_theme_name sel))).moveFile p
                (joinSeg [] (sanitize_theme_name sel) ++ [fn])
        memory := recordDecision st.memory fn cur sel
        oracleCount := st.oracleCount
        promptCount := st.promptCount
        events := st.events ++
          [.mkdirAll (joinSeg [] (sanitize_theme_name sel)),
           .moved p (joinSeg [] (sanitize_theme_name sel) ++ [fn]), .memSaved]
        fatal := st.fatal } := by
  simp [moveBranch, emit, h0, makedirs_existsFile, h1, List.append_assoc]

set_option maxRecDepth 100000 in
/--
C6: after each successful move, Decision Memory is mutated exactly once
and persisted synchronously — the whole move branch appends exactly one
`memSaved` event, placed right after the move; the record upserted under
the filename carries the fingerprint computed in the current loop
iteration and the resolved theme, and the theme is appended to the theme
list only if not already present by exact string equality.  In the §8
fallback scenario the persisted document is exactly
`{"files": {"a.md": {"crc": "3610a686", "theme": "Unsorted"}},
"themes": ["Unsorted"]}` (`"3610a686"` is the CRC32 of `"hello"`).
-/
theorem C6_move_records_decision_once :
    (∀ st p fn cur sel, st.fatal = false → st.fs.existsFile p = true →
      (moveBranch st p fn cur sel).memory =
        recordDecision st.memory fn cur sel ∧
      (moveBranch st p fn cur sel).events = st.events ++
        [.mkdirAll (joinSeg [] (sanitize_theme_name sel)),
         .moved p (joinSeg [] (sanitize_theme_name sel) ++ [fn]),
         .memSaved]) ∧
    (∀ m fn cur t,
      memFind (recordDecision m fn cur t).files fn = some ⟨cur, t⟩ ∧
      (recordDecision m fn cur t).themes =
        (if m.themes.contains t then m.themes else m.themes ++ [t])) ∧
    (c6Run.memory = ⟨[("a.md", ⟨"3610a686", "Unsorted"⟩)], ["Unsorted"]⟩ ∧
     calculate_crc helloBytes = "3610a686" ∧
     c6Run.fatal = false) := by
  refine ⟨?_, ?_, by decide, by decide, by decide⟩
  · intro st p fn cur sel h0 h1
    rw [moveBranch_eq st p fn cur sel h0 h1]
    exact ⟨rfl, rfl⟩
  · intro m fn cur t
    exact ⟨memFind_upsert m.files fn ⟨cur, t⟩, rfl⟩

/-- C6 witness: the move branch applied at the fallback scenario's data,
with the hypotheses discharged concretely. -/
theorem C6_move_records_decision_once_witness :
    (moveBranch (initState c6Fs ⟨[], []⟩) ["a.md"] "a.md" "3610a686"
        "Unsorted").memory =
      recordDecision (initState c6Fs ⟨[], []⟩).memory "a.md" "3610a686"
        "Unsorted" ∧
    memFind (recordDecision ⟨[], []⟩ "x.md" "00000000" "T").files "x.md" =
      some ⟨"00000000", "T"⟩ :=
  ⟨(C6_move_records_decision_once.1 (initState c6Fs ⟨[], []⟩) ["a.md"]
      "a.md" "3610a686" "Unsorted" rfl (by decide)).1,
   (C6_move_records_decision_once.2.1 ⟨[], []⟩ "x.md" "00000000" "T").1⟩

/--
C7 (amended): the engine performs no guard at all for a theme label
whose sanitized form is empty — the label is silently accepted.  Because
`os.path.join` with an empty component is a no-op, the destination
collapses to the working-tree root: no unnamed directory is created (the
directory set is unchanged), the file is moved directly into the root,
and the raw label is recorded in Decision Memory.
-/
theorem C7_empty_sanitized_silently_moves_to_root (st : OrgState)
    (p : FPath) (fn cur sel : String) (h0 : st.fatal = false)
    (h1 : sanitize_theme_name sel = "") (h2 : st.fs.existsFile p = true) :
    (moveBranch st p fn cur sel).fs.dirs = st.fs.dirs ∧
    (moveBranch st p fn cur sel).fatal = false ∧
    Event.moved p [fn] ∈ (moveBranch st p fn cur sel).events ∧
    (moveBranch st p fn cur sel).memory =
      recordDecision st.memory fn cur sel := by
  have hjoin : joinSeg [] (sanitize_theme_name sel) = [] := by
    rw [h1]; rfl
  rw [moveBranch_eq st p fn cur sel h0 h2]
  refine ⟨?_, h0, ?_, rfl⟩
  · show ((st.fs.makedirs (joinSeg [] (sanitize_theme_name sel))).moveFile
      p ((joinSeg [] (sanitize_theme_name sel)) ++ [fn])).dirs = st.fs.dirs
    rw [moveFile_dirs, hjoin]
    rfl
  · show Event.moved p [fn] ∈ st.events ++
      [.mkdirAll (joinSeg [] (sanitize_theme_name sel)),
       .moved p (joinSeg [] (sanitize_theme_name sel) ++ [fn]), .memSaved]
    rw [hjoin]
    exact List.mem_append_right _ (by simp)

/-- C7 witness: the degenerate label `"!!!"` at the concrete fixture. -/
theorem C7_empty_sanitized_silently_moves_to_root_witness :
    (moveBranch (initState c7Fs ⟨[], []⟩) ["sub", "f.md"] "f.md" "916b06e7"
        "!!!").fs.dirs = (initState c7Fs ⟨[], []⟩).fs.dirs ∧
    (moveBranch (initState c7Fs ⟨[], []⟩) ["sub", "f.md"] "f.md" "916b06e7"
        "!!!").fatal = false ∧
    Event.moved ["sub", "f.md"] ["f.md"] ∈
      (moveBranch (initState c7Fs ⟨[], []⟩) ["sub", "f.md"] "f.md"
        "916b06e7" "!!!").events ∧
    (moveBranch (initState c7Fs ⟨[], []⟩) ["sub", "f.md"] "f.md" "916b06e7"
        "!!!").memory =
      recordDecision (initState c7Fs ⟨[], []⟩).memory "f.md" "916b06e7"
        "!!!" :=
  C7_empty_sanitized_silently_moves_to_root (initState c7Fs ⟨[], []⟩)
    ["sub", "f.md"] "f.md" "916b06e7" "!!!" rfl (by decide) (by decide)

/--
C5 (amended): when the user enters the retry token, the engine discards
the current candidates and loops back to the top of the `while` loop —
the fingerprint-check step, not the oracle-query step: the continuation
is another full loop iteration, entered with the CRC computation and the
Decision Memory check re-run (the four events of the finished iteration
are exactly fingerprint computation, memory check, oracle query,
prompt).
-/
theorem C5_retry_loops_to_fingerprint_check (env : Env) (fuel : Nat)
    (st : OrgState) (p : FPath) (fn : String) (bytes : List Nat)
    (h0 : st.fatal = false)
    (h1 : st.fs.readFile p = some bytes)
    (h2 : memUpToDate st.memory fn (calculate_crc bytes) = false)
    (h3 : isMdName fn = false)
    (h4 : pyStrip (env.userIn p (getCount st.promptCount p)) = "r") :
    processLoop env (fuel + 1) st p fn =
      processLoop env fuel
        { st with
          events := st.events ++ [.crcOf p, .memCheck p false,
            .oracleQuery fn, .prompt p],
          oracleCount := st.oracleCount + 1,
          promptCount := bumpCount st.promptCount p } p fn := by
  have hpl : pyLower "r" = "r" := rfl
  simp [processLoop, h0, h1, h2, get_file_content, h3, emit, h4, hpl,
    List.append_assoc]

/-- C5 witness: the retry equation at a concrete non-markdown file with
the user retrying at the first prompt. -/
theorem C5_retry_loops_to_fingerprint_check_witness :
    processLoop c5Env (1 + 1) (initState c5wFs ⟨[], []⟩) ["data.txt"]
        "data.txt" =
      processLoop c5Env 1
        { initState c5wFs ⟨[], []⟩ with
          events := (initState c5wFs ⟨[], []⟩).events ++
            [.crcOf ["data.txt"], .memCheck ["data.txt"] false,
             .oracleQuery "data.txt", .prompt ["data.txt"]],
          oracleCount := (initState c5wFs ⟨[], []⟩).oracleCount + 1,
          promptCount := bumpCount (initState c5wFs ⟨[], []⟩).promptCount
            ["data.txt"] } ["data.txt"] "data.txt" :=
  C5_retry_loops_to_fingerprint_check c5Env 1 (initState c5wFs ⟨[], []⟩)
    ["data.txt"] "data.txt" [104] rfl (by decide) (by decide) (by decide)
    (by decide)

/-! ## The idempotence argument: a fully matched tree is never mutated -/

theorem untouched_refl (st : OrgState) : Untouched st st := ⟨rfl, rfl, rfl⟩

theorem untouched_trans {s1 s2 s3 : OrgState} (h1 : Untouched s1 s2)
    (h2 : Untouched s2 s3) : Untouched s1 s3 :=
  ⟨h2.1.trans h1.1, h2.2.1.trans h1.2.1, h2.2.2.trans h1.2.2⟩

theorem inv_of_untouched {s1 s2 : OrgState} (hi : Inv s1)
    (hu : Untouched s1 s2) : Inv s2 := by
  unfold Inv
  rw [hu.1, hu.2.1]
  exact hi

theorem countP_snoc (evs : List Event) (e : Event)
    (h : isMoveDel e = false) :
    (evs ++ [e]).countP isMoveDel = evs.countP isMoveDel := by
  rw [List.countP_append]
  simp [List.countP_cons, h]

theorem untouched_emit (st : OrgState) (e : Event)
    (h : isMoveDel e = false) : Untouched st (emit st e) :=
  ⟨rfl, rfl, countP_snoc st.events e h⟩

theorem untouched_fatalize (st : OrgState) (msg : String) :
    Untouched st (fatalize st msg) :=
  ⟨rfl, rfl, countP_snoc st.events (.errorLogged msg) rfl⟩

theorem readFile_some_spec {fs : FS} {p : FPath} {bytes : List Nat}
    (h : fs.readFile p = some bytes) :
    ∃ f, f ∈ fs.files ∧ f.path = p ∧ f.content = bytes := by
  unfold FS.readFile at h
  cases hf : fs.files.find? (fun f => f.path == p) with
  | none => simp [hf] at h
  | some f =>
    simp only [hf] at h
    by_cases hr : f.readFails = true
    · simp [hr] at h
    · simp only [Bool.not_eq_true] at hr
      simp only [hr, Bool.false_eq_true, if_false, Option.some.injEq] at h
      have hfm := List.mem_of_find?_eq_some hf
      have hfp := List.find?_some hf
      exact ⟨f, hfm, by simpa using hfp, h⟩

/-- The up-to-date skip path of the retry loop in closed form. -/
theorem processLoop_skip (env : Env) (fuel : Nat) (st : OrgState)
    (p : FPath) (fn : String) (bytes : List Nat) (h0 : st.fatal = false)
    (h1 : st.fs.readFile p = some bytes)
    (h2 : memUpToDate st.memory fn (calculate_crc bytes) = true) :
    processLoop env (fuel + 1) st p fn =
      { st with events := st.events ++ [.crcOf p, .memCheck p true] } := by
  simp [processLoop, h0, h1, h2, emit, List.append_assoc]

/-- The CRC read-failure path of the retry loop in closed form. -/
theorem processLoop_readfail (env : Env) (fuel : Nat) (st : OrgState)
    (p : FPath) (fn : String) (h0 : st.fatal = false)
    (h1 : st.fs.readFile p = none) :
    processLoop env (fuel + 1) st p fn = fatalize st "crc" := by
  simp [processLoop, h0, h1]

/-- On a fully matched state, processing any file leaves the tree, the
memory and the move/delete count unchanged. -/
theorem process_file_untouched (env : Env) (st : OrgState) (p : FPath)
    (hinv : Inv st) : Untouched st (process_file env st p) := by
  unfold process_file
  by_cases h0 : st.fatal = true
  · rw [if_pos h0]; exact untouched_refl st
  rw [if_neg h0]
  by_cases h1 : (!(should_process_path p)) = true
  · rw [if_pos h1]; exact untouched_refl st
  rw [if_neg h1]
  by_cases h2 : (!(st.fs.existsFile p)) = true
  · rw [if_pos h2]; exact untouched_refl st
  rw [if_neg h2]
  have h0' : st.fatal = false := by simpa using h0
  cases hrf : st.fs.readFile p with
  | none =>
    rw [processLoop_readfail env env.loopFuel st p (basename p) h0' hrf]
    exact untouched_fatalize st "crc"
  | some bytes =>
    obtain ⟨f, hfm, hfp, hfc⟩ := readFile_some_spec hrf
    have hup : memUpToDate st.memory (basename p) (calculate_crc bytes)
        = true := by
      have h3 := hinv f hfm
      rw [hfp] at h3
      rw [← hfc]
      exact h3
    rw [processLoop_skip env env.loopFuel st p (basename p) bytes h0' hrf
      hup]
    refine ⟨rfl, rfl, ?_⟩
    show (st.events ++ [Event.crcOf p, Event.memCheck p true]).countP
        isMoveDel = st.events.countP isMoveDel
    rw [List.countP_append]
    simp [List.countP_cons, isMoveDel]

theorem foldl_untouched {α : Type} (step : OrgState → α → OrgState)
    (hstep : ∀ st a, Inv st → Untouched st (step st a)) :
    ∀ (l : List α) (st : OrgState), Inv st →
      Untouched st (l.foldl step st) := by
  intro l
  induction l with
  | nil => intro st _; exact untouched_refl st
  | cons a t ih =>
    intro st hinv
    rw [List.foldl_cons]
    have hu1 := hstep st a hinv
    exact untouched_trans hu1 (ih (step st a) (inv_of_untouched hinv hu1))

theorem sweepFiles_untouched (env : Env) (st : OrgState) (d : FPath)
    (fils : List String) (hinv : Inv st) :
    Untouched st (sweepFiles env st d fils) := by
  unfold sweepFiles
  refine foldl_untouched _ ?_ fils st hinv
  intro s n hi
  by_cases hn : (n == memoryFileName) = true
  · rw [if_pos hn]; exact untouched_refl s
  · rw [if_neg hn]; exact process_file_untouched env s (d ++ [n]) hi

theorem sweepRm_untouched (st : OrgState) (d : FPath) :
    Untouched st (sweepRm st d) := by
  unfold sweepRm
  split_ifs
  · exact ⟨rfl, rfl, countP_snoc st.events (.rmdirOk d) rfl⟩
  · exact untouched_emit st (.rmdirFail d) rfl
  · exact untouched_refl st

theorem sweepBody_untouched (env : Env) (st : OrgState) (d : FPath)
    (fils : List String) (hinv : Inv st) :
    Untouched st (sweepBody env st d fils) := by
  unfold sweepBody
  by_cases hd : (!(should_process_path d)) = true
  · rw [if_pos hd]; exact untouched_refl st
  rw [if_neg hd]
  have hu1 := sweepFiles_untouched env st d fils hinv
  by_cases hf : (sweepFiles env st d fils).fatal = true
  · rw [if_pos hf]; exact hu1
  · rw [if_neg hf]
    exact untouched_trans hu1 (sweepRm_untouched (sweepFiles env st d fils) d)

theorem sweepDir_untouched (env : Env) :
    ∀ (fuel : Nat) (st : OrgState) (d : FPath), Inv st →
      Untouched st (sweepDir env fuel st d) := by
  intro fuel
  induction fuel with
  | zero =>
    intro st d _
    exact untouched_fatalize st "fuel"
  | succ n ih =>
    intro st d hinv
    show Untouched st
      (if st.fatal then st else
       let subs := (st.fs.childDirNames d).map (fun n => d ++ [n])
       let fils := st.fs.childFileNames d
       let st1 := subs.foldl (fun s q => sweepDir env n s q) st
       if st1.fatal then st1 else sweepBody env st1 d fils)
    by_cases h0 : st.fatal = true
    · rw [if_pos h0]; exact untouched_refl st
    rw [if_neg h0]
    show Untouched st
      (if (((st.fs.childDirNames d).map (fun n => d ++ [n])).foldl
            (fun s q => sweepDir env n s q) st).fatal then
        ((st.fs.childDirNames d).map (fun n => d ++ [n])).foldl
          (fun s q => sweepDir env n s q) st
       else sweepBody env
        (((st.fs.childDirNames d).map (fun n => d ++ [n])).foldl
          (fun s q => sweepDir env n s q) st) d (st.fs.childFileNames d))
    have hu1 : Untouched st
        (((st.fs.childDirNames d).map (fun n => d ++ [n])).foldl
          (fun s q => sweepDir env n s q) st) :=
      foldl_untouched _ (fun s q hi => ih s q hi) _ st hinv
    split_ifs
    · exact hu1
    · exact untouched_trans hu1
        (sweepBody_untouched env _ d (st.fs.childFileNames d)
          (inv_of_untouched hinv hu1))

theorem organize_untouched (env : Env) (fuel : Nat) (st : OrgState)
    (hinv : Inv st) : Untouched st (organize_notes env fuel st) := by
  unfold organize_notes
  by_cases h0 : st.fatal = true
  · rw [if_pos h0]; exact untouched_refl st
  rw [if_neg h0]
  have hu1 : Untouched st
      ((sortFiles (walkCollect fuel st.fs [])).foldl
        (fun s p => process_file env s p) st) :=
    foldl_untouched _ (fun s p hi => process_file_untouched env s p hi) _
      st hinv
  show Untouched st
    (if ((sortFiles (walkCollect fuel st.fs [])).foldl
          (fun s p => process_file env s p) st).fatal then
      (sortFiles (walkCollect fuel st.fs [])).foldl
        (fun s p => process_file env s p) st
     else sweepDir env fuel
      (emit ((sortFiles (walkCollect fuel st.fs [])).foldl
        (fun s p => process_file env s p) st) .sweepStart) [])
  split_ifs
  · exact hu1
  · have hu2 := untouched_emit
      ((sortFiles (walkCollect fuel st.fs [])).foldl
        (fun s p => process_file env s p) st) .sweepStart rfl
    have hu12 := untouched_trans hu1 hu2
    exact untouched_trans hu12
      (sweepDir_untouched env fuel _ [] (inv_of_untouched hinv hu12))

/--
C3 (amended): a file whose basename has a Decision Memory record with a
matching fingerprint is skipped with zero oracle calls, zero prompts and
zero filesystem actions (the trace gains exactly the fingerprint
computation and the memory check).  Consequently, when every file's
fingerprint already matches memory at the start of a run, the run
performs zero move and zero delete actions.  The unconditional
second-run statement fails when distinct files share a basename: the
shared memory slot holds only the last-written fingerprint, so the other
duplicate re-prompts and can be re-moved on every run.
-/
theorem C3_matched_skip_and_matched_run_no_actions :
    (∀ env st (p : FPath) bytes, st.fatal = false →
      should_process_path p = true → st.fs.existsFile p = true →
      st.fs.readFile p = some bytes →
      memUpToDate st.memory (basename p) (calculate_crc bytes) = true →
      process_file env st p =
        { st with events := st.events ++ [.crcOf p, .memCheck p true] }) ∧
    (∀ env fuel fs mem, InvFM fs.files mem →
      (organize_notes env fuel (initState fs mem)).events.countP isMoveDel
        = 0) := by
  constructor
  · intro env st p bytes h0 h1 h2 h3 h4
    unfold process_file
    rw [if_neg (by simp [h0]), if_neg (by simp [h1]), if_neg (by simp [h2])]
    exact processLoop_skip env env.loopFuel st p (basename p) bytes h0 h3 h4
  · intro env fuel fs mem hinv
    have h := organize_untouched env fuel (initState fs mem) hinv
    rw [h.2.2]
    rfl

set_option maxRecDepth 100000 in
/-- C3 witness: the matched `hello` note is skipped with only the
fingerprint/memory-check trace, and a full run over the matched tree
performs zero move/delete actions. -/
theorem C3_matched_skip_and_matched_run_no_actions_witness :
    process_file c6Env (initState c6Fs c3wMem) ["a.md"] =
      { initState c6Fs c3wMem with
        events := (initState c6Fs c3wMem).events ++
          [.crcOf ["a.md"], .memCheck ["a.md"] true] } ∧
    (organize_notes c6Env 5 (initState c6Fs c3wMem)).events.countP isMoveDel
      = 0 :=
  ⟨C3_matched_skip_and_matched_run_no_actions.1 c6Env
      (initState c6Fs c3wMem) ["a.md"] helloBytes rfl (by decide)
      (by decide) (by decide) (by decide),
   C3_matched_skip_and_matched_run_no_actions.2 c6Env 5 c6Fs c3wMem
      (by unfold InvFM; decide)⟩

/-! ## Closed scenario theorems -/

set_option maxRecDepth 100000 in
/--
C1: the claim (and the spec) say a blank markdown note is deleted and
its state machine terminates with no oracle query, no prompt and no move
attempt.  The code does delete the note inside `get_file_content`, but
`process_file` then continues: it issues an oracle query, prompts the
user, and on a selection attempts to move the already-deleted file,
which raises and aborts the run.  No memory entry is created, as the
claim says.
-/
theorem C1_blank_md_deleted_then_still_queried :
    c1Run.events =
      [.crcOf ["a.md"], .memCheck ["a.md"] false, .fileDeleted ["a.md"],
       .oracleQuery "a.md", .prompt ["a.md"], .mkdirAll ["Unsorted"],
       .errorLogged "move"] ∧
    c1Run.memory.files = [] ∧ c1Run.fatal = true := by
  refine ⟨by decide, by decide, by decide⟩

set_option maxRecDepth 100000 in
/--
C2 counterexample: a CRC read error on `a.md` is logged and re-raised,
aborting the whole run — `b.md`, which sorts after it, is never touched
(the trace holds no event for it), contradicting "continues the run over
the remaining files".  The failing file's memory entry is indeed not
updated.
-/
theorem C2_counterexample_crc_error_aborts_run :
    c2Run.fatal = true ∧
    c2Run.events = [.errorLogged "crc"] ∧
    Event.crcOf ["b.md"] ∉ c2Run.events ∧
    c2Run.memory.files = [] := by
  refine ⟨by decide, by decide, by decide, by decide⟩

set_option maxRecDepth 100000 in
/--
C4: the claim (and the spec) say a directory containing only hidden
entries is removed by the sweep.  `is_directory_empty` does report
`Old/Sub` (which contains only `.h`) as empty, but `os.rmdir` refuses to
remove a directory that still has entries; the error is caught and
logged, and the directory remains, so the sweep never removes it (and
hence never reaches `Old` either).
-/
theorem C4_hidden_only_dir_survives_sweep :
    is_directory_empty c4Fs ["Old", "Sub"] = true ∧
    c4Run.events = [.rmdirFail ["Old", "Sub"]] ∧
    c4Run.fs = c4Fs ∧
    c4Run.fatal = false := by
  refine ⟨by decide, by decide, by decide, by decide⟩

set_option maxRecDepth 100000 in
/--
C5 counterexample: after the user enters the retry token, the very next
actions are a fresh CRC computation and a fresh Decision Memory check —
visible as the second `crcOf`/`memCheck` pair between the first prompt
and the second oracle query — contradicting "loops back to the
oracle-query step without re-checking the file's fingerprint".
-/
theorem C5_counterexample_retry_rechecks_fingerprint :
    c5Run.events =
      [.crcOf ["n.md"], .memCheck ["n.md"] false, .oracleQuery "n.md",
       .prompt ["n.md"], .crcOf ["n.md"], .memCheck ["n.md"] false,
       .oracleQuery "n.md", .prompt ["n.md"]] := by
  decide

set_option maxRecDepth 100000 in
/--
C7 counterexample: the custom label `"!!!"` sanitizes to the empty
string, yet the engine neither rejects nor relabels it: processing
completes without error, the file is moved (to the working-tree root,
since joining an empty path component is a no-op), and the raw label is
recorded in memory.
-/
theorem C7_counterexample_empty_sanitized_accepted :
    sanitize_theme_name "!!!" = "" ∧
    c7Run.fatal = false ∧
    Event.moved ["sub", "f.md"] ["f.md"] ∈ c7Run.events ∧
    memFind c7Run.memory.files "f.md" = some ⟨"916b06e7", "!!!"⟩ ∧
    c7Run.fs.dirs = c7Fs.dirs := by
  refine ⟨by decide, by decide, by decide, by decide, by decide⟩

set_option maxRecDepth 100000 in
/--
C10: the sweep re-invokes the full per-file classification before each
directory's emptiness is evaluated: the file cancelled during the main
pass (the prompt before `sweepStart`) is prompted a second time during
the sweep (after `sweepStart`), is moved during the sweep itself, and
the emptied directory is then removed — moves interleaved with
directory removals.
-/
theorem C10_sweep_reclassifies_and_moves :
    c10Run.events =
      [.crcOf ["dir1", "n.md"], .memCheck ["dir1", "n.md"] false,
       .oracleQuery "n.md", .prompt ["dir1", "n.md"], .sweepStart,
       .crcOf ["dir1", "n.md"], .memCheck ["dir1", "n.md"] false,
       .oracleQuery "n.md", .prompt ["dir1", "n.md"],
       .mkdirAll ["Unsorted"], .moved ["dir1", "n.md"] ["Unsorted", "n.md"],
       .memSaved, .rmdirOk ["dir1"]] ∧
    c10Run.fatal = false := by
  refine ⟨by decide, by decide⟩

set_option maxRecDepth 1000000 in
/--
C3 counterexample: two distinct files share the basename `a.md`; the
shared memory slot holds only the last-written fingerprint, so after a
completed first run one of them is still mismatched.  A second run over
the unchanged tree, with the user answering every prompt by the same
(file-determined) function, performs move actions again — the engine
never converges, contradicting "zero move and zero delete actions on
the second run".
-/
theorem C3_counterexample_second_run_still_moves :
    c3Run1.fatal = false ∧ c3Run2.fatal = false ∧
    c3Run2.events.countP isMoveDel ≠ 0 := by
  refine ⟨by decide, by decide, by decide⟩

end NotesOrganizer
